import Mathlib

/-!
Shallow embedding of the tokenbridge repository pieces needed for the claims:

* `HathorTransactions.sol` — the on-chain ledger contract: transaction id
  derivation (keccak256 over abi.encodePacked of the transfer fields) and the
  three mutating entry points with their idempotency guards.
* `HathorService` (federator event coordinator) — `parseHathorLogs` branch
  structure, the pub-sub message handler with its ack/nack and
  non-retriable-error policy, and `sendTokensToHathor`.
* `HathorWallet` — `wrapData` (chunked payload encoding), `isWalletReady`
  (readiness polling with retry budget), `sendTokensToHathor`.

External collaborators (keccak256, brokers, the wallet HTTP service, the
pub-sub queue) are modelled as parameters or oracle environments; the emitted
calls are recorded in an explicit trace so that frame properties (which calls
happen) are provable.
-/

namespace TokenBridge

/-! ## On-chain ledger: HathorTransactions.sol -/

/-- The `Flow` enum of the contract (the source spells the third value
`TRNASFER`). In `abi.encodePacked` an enum is encoded as a single `uint8`. -/
inductive Flow
  | MELT
  | MINT
  | TRNASFER
  | RETURN
deriving DecidableEq

/-- Numeric value of the enum, as Solidity assigns it. -/
def Flow.toByte : Flow → Nat
  | .MELT => 0
  | .MINT => 1
  | .TRNASFER => 2
  | .RETURN => 3

/-- Big-endian byte expansion: `toBytesBE k n` is the `k`-byte big-endian
representation of `n % 256^k`. `bytes32` and `uint256` values occupy 32 bytes
in `abi.encodePacked`. -/
def toBytesBE : Nat → Nat → List Nat
  | 0, _ => []
  | k + 1, n => toBytesBE k (n / 256) ++ [n % 256]

/-- The semantic transfer tuple of the contract entry points: all `bytes32`
arguments are modelled as natural numbers below `2 ^ 256` (the packing only
looks at the low 32 bytes), `value` is the `uint256` argument. -/
structure Transfer where
  originalTokenAddress : Nat
  transactionHash : Nat
  value : Nat
  sender : Nat
  receiver : Nat
  flow : Flow

/-- The packed concatenation in the fixed field order stated by the spec:
`originalTokenAddress ‖ sender ‖ receiver ‖ value ‖ transactionHash ‖ flow`.
This is the reference (spec-side) definition that the per-entry-point
byte strings are compared against. -/
def encodePackedTransfer (t : Transfer) : List Nat :=
  toBytesBE 32 t.originalTokenAddress ++ toBytesBE 32 t.sender ++
    toBytesBE 32 t.receiver ++ toBytesBE 32 t.value ++
    toBytesBE 32 t.transactionHash ++ [t.flow.toByte]

/-- Contract storage. Addresses and transaction ids are natural numbers; the
mappings of the contract become total functions with default values, exactly
as Solidity mappings behave. -/
structure ContractState where
  isMember : Nat → Bool
  isSigned : Nat → Nat → Bool
  isProcessed : Nat → Bool
  isProposed : Nat → Bool
  transactionHex : Nat → List Nat
  transactionSignatures : Nat → List (List Nat)

/-- Entry point `getTransactionId`: an `onlyMember` function returning
`keccak256(abi.encodePacked(originalTokenAddress, sender, receiver, value,
transactionHash, flow))`. The keccak256 primitive is a parameter (byte string
to word); the packing expression is written out as in the source body. -/
def getTransactionId (keccak : List Nat → Nat) (st : ContractState)
    (caller : Nat) (t : Transfer) : Except String Nat :=
  if st.isMember caller = false then .error "Federation: Not Federator"
  else
    .ok (keccak (toBytesBE 32 t.originalTokenAddress ++ toBytesBE 32 t.sender ++
      toBytesBE 32 t.receiver ++ toBytesBE 32 t.value ++
      toBytesBE 32 t.transactionHash ++ [t.flow.toByte]))

/-- Entry point `sendTransactionProposal`: derives the id with the same packing, reverts
when `isProposed[transactionId]` is already true, otherwise stores the hex and
marks the id proposed. The returned `Nat` is the `transactionId` carried by
the emitted `TransactionProposed` event. -/
def sendTransactionProposal (keccak : List Nat → Nat) (st : ContractState)
    (caller : Nat) (t : Transfer) (txHex : List Nat) :
    Except String (ContractState × Nat) :=
  if st.isMember caller = false then .error "Federation: Not Federator"
  else
    let transactionId := keccak (toBytesBE 32 t.originalTokenAddress ++
      toBytesBE 32 t.sender ++ toBytesBE 32 t.receiver ++ toBytesBE 32 t.value ++
      toBytesBE 32 t.transactionHash ++ [t.flow.toByte])
    if st.isProposed transactionId = true then
      .error "HathorTransactions: already proposed"
    else
      .ok ({ st with
              transactionHex := fun j =>
                if j = transactionId then txHex else st.transactionHex j,
              isProposed := fun j =>
                if j = transactionId then true else st.isProposed j },
           transactionId)

/-- Entry point `updateSignatureState`: derives the id with the same packing, reverts when
`isSigned[transactionId][msg.sender]` is already true, otherwise assigns the
caller-supplied `signed` boolean and appends the signature. The returned `Nat`
is the id carried by the `ProposalSigned` event. -/
def updateSignatureState (keccak : List Nat → Nat) (st : ContractState)
    (caller : Nat) (t : Transfer) (signature : List Nat) (signed : Bool) :
    Except String (ContractState × Nat) :=
  if st.isMember caller = false then .error "Federation: Not Federator"
  else
    let transactionId := keccak (toBytesBE 32 t.originalTokenAddress ++
      toBytesBE 32 t.sender ++ toBytesBE 32 t.receiver ++ toBytesBE 32 t.value ++
      toBytesBE 32 t.transactionHash ++ [t.flow.toByte])
    if st.isSigned transactionId caller = true then
      .error "HathorTransactions: Transaction already signed"
    else
      .ok ({ st with
              isSigned := fun j a =>
                if j = transactionId ∧ a = caller then signed
                else st.isSigned j a,
              transactionSignatures := fun j =>
                if j = transactionId then
                  st.transactionSignatures j ++ [signature]
                else st.transactionSignatures j },
           transactionId)

/-- Entry point `updateTransactionState`: derives the id with the same packing, reverts
when `isProcessed[transactionId]` is already true, otherwise assigns the
caller-supplied `sent` boolean. The returned `Nat` is the id carried by the
`ProposalSent` event. -/
def updateTransactionState (keccak : List Nat → Nat) (st : ContractState)
    (caller : Nat) (t : Transfer) (sent : Bool) :
    Except String (ContractState × Nat) :=
  if st.isMember caller = false then .error "Federation: Not Federator"
  else
    let transactionId := keccak (toBytesBE 32 t.originalTokenAddress ++
      toBytesBE 32 t.sender ++ toBytesBE 32 t.receiver ++ toBytesBE 32 t.value ++
      toBytesBE 32 t.transactionHash ++ [t.flow.toByte])
    if st.isProcessed transactionId = true then
      .error "HathorTransactions: Transaction already sent"
    else
      .ok ({ st with
              isProcessed := fun j =>
                if j = transactionId then sent else st.isProcessed j },
           transactionId)

/-- Success test for `Except` results. -/
def isOkE {α : Type} (e : Except String α) : Bool :=
  match e with
  | .ok _ => true
  | .error _ => false

/-! ## Event coordinator: HathorService (federator) -/

/-- The slice of the per-chain configuration that `parseHathorLogs` and the
queue listener consult. -/
structure ChainCfg where
  multisigOrder : Nat
  multisigRequiredSignatures : Nat
deriving DecidableEq

/-- One entry of `tx.getCustomTokenData()` (value, token, sender of the
custom token output), as consumed by the inbound-transfer branch. -/
structure TokenData where
  value : Nat
  token : String
  sender : String
deriving DecidableEq

/-- Modelled from the spec: the decoded `HathorTx` interface (the class lives
in `src/types/HathorTx.ts`, which is not part of the provided sources).
`hasHex`, `hasSig`, `hasAddr` are the results of `haveCustomData` for the
three known tags; `customDataType` is `getCustomDataType()` (the sub-tag
`hsh`/`hid` when present); `customData` is `getCustomData(tag)`;
`customTokenData` is `getCustomTokenData()`. A transaction exposes at most
one logical custom-data item per type. -/
structure HathorTxM where
  txId : String
  timestamp : Nat
  hasHex : Bool
  hasSig : Bool
  hasAddr : Bool
  customDataType : Option String
  customData : String → String
  customTokenData : List TokenData

/-- A queue message after `JSON.parse`: the event type string and the decoded
transaction built from `event.data`. -/
structure EventMsg where
  eventType : String
  tx : HathorTxM

/-- The two broker variants of the federator. -/
inductive BrokerKind
  | evm
  | hathor
deriving DecidableEq

/-- Result shape of `broker.getSignaturesToPush`. -/
structure ProposalComponents where
  hex : String
  signatures : List String
deriving DecidableEq

/-- Oracle environment for the external broker calls made while handling one
message: the answer of `isTxConfirmed`, the components returned by
`getSignaturesToPush`, and the boolean result of `sendTokensFromHathor`. -/
structure BrokerEnv where
  confirmed : Bool
  components : ProposalComponents
  sendResult : Bool
deriving DecidableEq

/-- An error thrown while processing a message: either a `HathorException`
(carrying its message and its original upstream message) or any other
JavaScript error (for example a `TypeError`). -/
inductive ThrownError
  | hathorEx (message original : String)
  | other (message : String)
deriving DecidableEq

/-- The external calls a message handler can perform, recorded as a trace. -/
inductive BrokerCall
  | isTxConfirmed (broker : BrokerKind) (txId : String)
  | sendMySignaturesToProposal (txHex dataArg : String)
  | getSignaturesToPush (txId : String)
  | signAndPushProposal (hexArg txId : String) (sigs : List String)
  | sendTokensFromHathor (addrArg : String) (value : Nat) (token : String)
      (txId : String) (senderArg : String) (timestamp : Nat)
deriving DecidableEq

/-- Which branch of `parseHathorLogs` handled the message (pure
instrumentation of the source control flow; each constructor corresponds to
one early-return region of the function body). -/
inductive Branch
  | notNewTx
  | proposal
  | signature
  | inbound
  | fallthrough
deriving DecidableEq

/-- Helper `getBrokerAndDataType`: switches on `tx.getCustomDataType()`; `hsh` picks
the `EvmBroker`, `hid` picks the `HathorBroker`; any other value falls off the
switch and the function returns `undefined` (here `none`). -/
def getBrokerAndDataType (tx : HathorTxM) : Option (BrokerKind × String) :=
  match tx.customDataType with
  | some "hsh" => some (.evm, "hsh")
  | some "hid" => some (.hathor, "hid")
  | _ => none

/-- Embedding of `HathorService.parseHathorLogs`, with the branch marker, the trace of
broker calls, and the returned value. `Except.error` models a thrown
exception; `.ok none` models the implicit `undefined` return when the
function falls through every branch; destructuring the `undefined` result of
`getBrokerAndDataType` and indexing an empty `getCustomTokenData()` both model
the `TypeError` the JavaScript code would throw there. -/
def parseHathorLogs (cfg : ChainCfg) (env : BrokerEnv) (e : EventMsg) :
    Branch × List BrokerCall × Except ThrownError (Option Bool) :=
  if e.eventType ≠ "wallet:new-tx" then (.notNewTx, [], .ok (some true))
  else
    let tx := e.tx
    if tx.hasHex then
      match getBrokerAndDataType tx with
      | none => (.proposal, [], .error (.other "TypeError: not iterable"))
      | some (bk, dataType) =>
        let c1 := BrokerCall.isTxConfirmed bk tx.txId
        if env.confirmed = false then (.proposal, [c1], .ok (some false))
        else
          (.proposal,
           [c1, .sendMySignaturesToProposal (tx.customData "hex")
                  (tx.customData dataType)],
           .ok (some true))
    else if tx.hasSig ∧ cfg.multisigRequiredSignatures ≤ cfg.multisigOrder then
      match getBrokerAndDataType tx with
      | none => (.signature, [], .error (.other "TypeError: not iterable"))
      | some (bk, dataType) =>
        let c1 := BrokerCall.isTxConfirmed bk tx.txId
        if env.confirmed = false then (.signature, [c1], .ok (some false))
        else
          let txId := tx.customData dataType
          let c2 := BrokerCall.getSignaturesToPush txId
          if env.components.signatures.length < cfg.multisigRequiredSignatures
          then (.signature, [c1, c2], .ok (some false))
          else
            (.signature,
             [c1, c2, .signAndPushProposal env.components.hex txId
                        env.components.signatures],
             .ok (some true))
    else if tx.hasAddr then
      let c1 := BrokerCall.isTxConfirmed .hathor tx.txId
      if env.confirmed = false then (.inbound, [c1], .ok (some false))
      else
        match tx.customTokenData.head? with
        | none =>
          (.inbound, [c1], .error (.other "TypeError: tokenData undefined"))
        | some td =>
          let c2 := BrokerCall.sendTokensFromHathor (tx.customData "addr")
            td.value td.token tx.txId td.sender tx.timestamp
          if env.sendResult = false then
            (.inbound, [c1, c2], .error (.hathorEx "Invalid tx" "Invalid tx"))
          else (.inbound, [c1, c2], .ok (some true))
    else (.fallthrough, [], .ok none)

/-- The configured non-retriable error patterns of `HathorService` (regular
expressions whose only metacharacter is the dot). -/
def nonRetriableErrors : List String :=
  ["Invalid transaction. At least one of your inputs has already been spent.",
   "Transaction already exists",
   "Invalid tx"]

/-- One pattern character matches one subject character when it is the regex
dot or the same character. -/
def charMatches (p c : Char) : Bool := p = '.' ∨ p = c

/-- The pattern matches at the head of the subject. -/
def matchesAt : List Char → List Char → Bool
  | [], _ => true
  | _ :: _, [] => false
  | p :: ps, c :: cs => charMatches p c && matchesAt ps cs

/-- Unanchored regex-lite match, as `String.prototype.match` behaves on the
configured patterns: the pattern matches somewhere in the subject. -/
def regexLiteMatch : List Char → List Char → Bool
  | pat, [] => matchesAt pat []
  | pat, c :: cs => matchesAt pat (c :: cs) || regexLiteMatch pat cs

/-- The loop of the catch block: does the original message of the exception
match any configured non-retriable pattern. -/
def isNonRetriable (msg : String) : Bool :=
  nonRetriableErrors.any fun p => regexLiteMatch p.toList msg.toList

/-- The queue acknowledgement decision. -/
inductive QueueAction
  | ack
  | nack
deriving DecidableEq

/-- The catch block of the pub-sub message listener: a `HathorException`
whose original message matches a non-retriable pattern is acked, every other
error is nacked. -/
def handleQueueError (err : ThrownError) : QueueAction :=
  match err with
  | .hathorEx _ original => if isNonRetriable original then .ack else .nack
  | .other _ => .nack

/-- The pub-sub message callback of `listenToPubSubEventQueue`: run
`parseHathorLogs`; a truthy response acks, a falsy response (`false` or
`undefined`) nacks, a thrown error goes to the catch block. -/
def handleMessage (cfg : ChainCfg) (env : BrokerEnv) (e : EventMsg) :
    QueueAction :=
  match (parseHathorLogs cfg env e).2.2 with
  | .ok r => if r = some true then .ack else .nack
  | .error err => handleQueueError err

/-! ## Payload codec: HathorWallet.wrapData and the spec decode -/

/-- One output produced by `wrapData`: a data-carrying output
(an object with type `data` and the payload) or the final multisig address output. -/
inductive WrapOutput
  | dataOut (payload : List Char)
  | addressOut
deriving DecidableEq

/-- Embedding of `HathorWallet.wrapData` with the data limit as a parameter (the source
fixes `dataLimit = 145`): `arraySize = ceil(length / dataLimit)` chunks, the
i-th being `dataType + i + arraySize + data.substring(i*dataLimit,
(i+1)*dataLimit)`, followed by the address output. Strings are modelled as
character lists; the unused `txId` parameter of the source is dropped. -/
def wrapDataGen (dataType : List Char) (data : List Char) (dataLimit : Nat) :
    List WrapOutput :=
  let arraySize := (data.length + dataLimit - 1) / dataLimit
  ((List.range arraySize).map fun i =>
      WrapOutput.dataOut (dataType ++ (toString i).toList ++
        (toString arraySize).toList ++ ((data.drop (i * dataLimit)).take dataLimit)))
    ++ [WrapOutput.addressOut]

/-- The `wrapData` entry as the source calls it, with `dataLimit = 145`. -/
def wrapData (dataType : List Char) (data : List Char) : List WrapOutput :=
  wrapDataGen dataType data 145

/-- Strip an expected prefix, or fail. -/
def dropPrefixQ : List Char → List Char → Option (List Char)
  | [], s => some s
  | _ :: _, [] => none
  | t :: ts, c :: cs => if t = c then dropPrefixQ ts cs else none

/-- Numeric value of a decimal digit character. -/
def charDigitVal (c : Char) : Nat := c.toNat - 48

/-- Modelled from the spec: parse one custom-data output against a type tag
(the decode side lives in `src/types/HathorTx.ts`/`HathorUtxo.ts`, which are
not part of the provided sources). An output matches when its payload starts
with the tag; after the tag come the chunk index and the chunk total, each a
single decimal digit in the source scheme, then the chunk body. -/
def chunkOfOutput (tag : List Char) : WrapOutput → Option (Nat × List Char)
  | .dataOut s =>
    match dropPrefixQ tag s with
    | some (i :: _tot :: body) => some (charDigitVal i, body)
    | _ => none
  | .addressOut => none

/-- Insert one indexed chunk into a list sorted by chunk index. -/
def insertByIdx (p : Nat × List Char) :
    List (Nat × List Char) → List (Nat × List Char)
  | [] => [p]
  | q :: qs => if p.1 ≤ q.1 then p :: q :: qs else q :: insertByIdx p qs

/-- Insertion sort by chunk index. -/
def sortByIdx : List (Nat × List Char) → List (Nat × List Char)
  | [] => []
  | p :: ps => insertByIdx p (sortByIdx ps)

/-- Modelled from the spec: `decode(outputs, typeTag)` locates all
custom-data outputs whose payload starts with the tag, orders them by the
embedded chunk index, concatenates the bodies, and returns absent when no
matching output exists. -/
def decodeData (outs : List WrapOutput) (tag : List Char) :
    Option (List Char) :=
  let chunks := outs.filterMap (chunkOfOutput tag)
  if chunks.isEmpty = true then none
  else some ((sortByIdx chunks).map Prod.snd).flatten

/-! ## Wallet readiness polling: HathorWallet.isWalletReady -/

/-- The `GET /wallet/status` response shape consulted by `isWalletReady`. -/
structure StatusResponse where
  success : Bool
  statusCode : Nat
  statusMessage : String
deriving DecidableEq

/-- The observable effects of one `isWalletReady` run. -/
inductive WEffect
  | poll
  | delayMs (ms : Nat)
  | startCall
deriving DecidableEq

/-- The wallet status constants of `HathorWallet`. -/
def WALLET_STATUS_CONNECTING : Nat := 1

/-- Status code for a syncing wallet. -/
def WALLET_STATUS_SYNCING : Nat := 2

/-- Status code for a ready wallet. -/
def WALLET_STATUS_READY : Nat := 3

/-- Embedding of `HathorWallet.isWalletReady`, driven by a stub list of successive status
responses (one consumed per poll). `retry` starts at 1 and the function gives
up (returning `false` without polling) once `retry > 3`. A ready status
returns `true`; connecting or syncing delays 3000 ms and retries; a stopped
response (success `false` with empty status message, once the first two
checks failed) calls start, delays, and retries; any other response falls off
the body returning `undefined` (`.ok none`); an exhausted stub models the
request itself failing, which the source rethrows. -/
def isWalletReady (responses : List StatusResponse) (retry : Nat) :
    List WEffect × Except String (Option Bool) :=
  if retry > 3 then ([], .ok (some false))
  else
    match responses with
    | [] => ([.poll], .error "Fail to get status of wallet")
    | r :: rest =>
      if r.statusCode = WALLET_STATUS_READY then ([.poll], .ok (some true))
      else if r.statusCode = WALLET_STATUS_CONNECTING ∨
          r.statusCode = WALLET_STATUS_SYNCING then
        let p := isWalletReady rest (retry + 1)
        (.poll :: .delayMs 3000 :: p.1, p.2)
      else if r.success = false ∧ r.statusMessage = "" then
        let p := isWalletReady rest (retry + 1)
        (.poll :: .startCall :: .delayMs 3000 :: p.1, p.2)
      else ([.poll], .ok none)

/-! ## sendTokensToHathor guards -/

/-- The calls that `sendTokensToHathor` can perform, across its two
implementations. -/
inductive SendCall
  | isWalletReadyCall (multisig : Bool)
  | sendTransactionProposalCall
  | broadcastProposalCall
  | brokerSendTokensToHathor
deriving DecidableEq

namespace HathorWalletM

/-- Embedding of `HathorWallet.sendTokensToHathor`: the first statement returns when
`multisigOrder > 1`; otherwise both readiness checks, the proposal creation
and the broadcast run, with an outcome supplied by the external environment.
The guard branch performs no call and produces no error. -/
def sendTokensToHathor (multisigOrder : Nat) (env : Except String Unit) :
    List SendCall × Except String Unit :=
  if multisigOrder > 1 then ([], .ok ())
  else ([.isWalletReadyCall true, .isWalletReadyCall false,
         .sendTransactionProposalCall, .broadcastProposalCall], env)

end HathorWalletM

namespace HathorServiceM

/-- Embedding of `HathorService.sendTokensToHathor`: the first statement returns when
`chainConfig.multisigOrder > 1`; otherwise an `EvmBroker` is built and its
`sendTokensToHathor` runs, with an outcome supplied by the environment. -/
def sendTokensToHathor (multisigOrder : Nat) (env : Except String Unit) :
    List SendCall × Except String Unit :=
  if multisigOrder > 1 then ([], .ok ())
  else ([.brokerSendTokensToHathor], env)

end HathorServiceM

/-! ## Concrete fixtures -/

/-- A concrete stand-in for the keccak256 collaborator, used only by closed
witnesses and counterexamples (the theorems quantify over the hash). -/
def exKeccak : List Nat → Nat :=
  fun bs => bs.foldl (fun a b => 256 * a + b) 0 % 1000003

/-- A concrete transfer tuple. -/
def exT : Transfer :=
  { originalTokenAddress := 1, transactionHash := 2, value := 3,
    sender := 4, receiver := 5, flow := .MINT }

/-- A fresh contract state whose only member is address 1. -/
def exMemberState : ContractState :=
  { isMember := fun a => a == 1, isSigned := fun _ _ => false,
    isProcessed := fun _ => false, isProposed := fun _ => false,
    transactionHex := fun _ => [], transactionSignatures := fun _ => [] }

/-- The id derived for the fixture transfer. -/
def transferId (keccak : List Nat → Nat) (t : Transfer) : Nat :=
  keccak (encodePackedTransfer t)

/-- State `exMemberState` after member 1 calls `updateSignatureState` on `exT`
passing `signed := false` (the error case defaults back to the input state;
the call does succeed). -/
def exStateAfterFalseSign : ContractState :=
  match updateSignatureState exKeccak exMemberState 1 exT [7] false with
  | .ok (s, _) => s
  | .error _ => exMemberState

/-- State `exMemberState` with every id already proposed. -/
def exProposedState : ContractState :=
  { exMemberState with isProposed := fun _ => true }

/-! ## C1 -/

/-- C1: every entry point of the contract (`getTransactionId`,
`sendTransactionProposal`, `updateSignatureState`, `updateTransactionState`)
derives the transaction identifier as keccak256 of the packed concatenation
of the fields in the fixed order originalTokenAddress, sender, receiver,
value, transactionHash, flow — that is, of `encodePackedTransfer` — so all
four agree on the same inputs; the derivation is a pure function of the
transfer tuple (and of the hash), hence deterministic. -/
theorem c1_transaction_id_agreement (keccak : List Nat → Nat)
    (st : ContractState) (caller : Nat) (t : Transfer)
    (txHex signature : List Nat) (signed sent : Bool)
    (hmem : st.isMember caller = true) :
    getTransactionId keccak st caller t =
      .ok (keccak (encodePackedTransfer t)) ∧
    (∀ st2 idv, sendTransactionProposal keccak st caller t txHex =
        .ok (st2, idv) → idv = keccak (encodePackedTransfer t)) ∧
    (∀ st2 idv, updateSignatureState keccak st caller t signature signed =
        .ok (st2, idv) → idv = keccak (encodePackedTransfer t)) ∧
    (∀ st2 idv, updateTransactionState keccak st caller t sent =
        .ok (st2, idv) → idv = keccak (encodePackedTransfer t)) := by
  refine ⟨?_, ?_, ?_, ?_⟩
  · simp [getTransactionId, hmem, encodePackedTransfer]
  · intro st2 idv h
    simp only [sendTransactionProposal, hmem, Bool.true_eq_false, if_false] at h
    split at h
    · exact absurd h (by simp)
    · simp only [Except.ok.injEq, Prod.mk.injEq] at h
      rw [← h.2, encodePackedTransfer]
  · intro st2 idv h
    simp only [updateSignatureState, hmem, Bool.true_eq_false, if_false] at h
    split at h
    · exact absurd h (by simp)
    · simp only [Except.ok.injEq, Prod.mk.injEq] at h
      rw [← h.2, encodePackedTransfer]
  · intro st2 idv h
    simp only [updateTransactionState, hmem, Bool.true_eq_false, if_false] at h
    split at h
    · exact absurd h (by simp)
    · simp only [Except.ok.injEq, Prod.mk.injEq] at h
      rw [← h.2, encodePackedTransfer]

/-- Witness for C1 at the concrete fixtures. -/
theorem c1_transaction_id_agreement_witness :
    getTransactionId exKeccak exMemberState 1 exT =
      .ok (exKeccak (encodePackedTransfer exT)) :=
  (c1_transaction_id_agreement exKeccak exMemberState 1 exT [] [] true true
    rfl).1

/-! ## C3 -/

set_option maxRecDepth 100000 in
/-- C3 counterexample: the claim states that `updateSignatureState` reverts
on a second call by the same member for the same id, but when the first call
passes `signed = false` the flag stays false and a second call by the same
member for the same transfer succeeds as well. -/
theorem c3_counterexample :
    isOkE (updateSignatureState exKeccak exMemberState 1 exT [7] false) =
      true ∧
    isOkE (updateSignatureState exKeccak exStateAfterFalseSign 1 exT [9]
      false) = true := by
  constructor <;> rfl

/-- C3 (amended): the flags `isProposed`, `isSigned[federator]` and
`isProcessed` are monotone one-way booleans — no successful operation resets
a flag that is true; `sendTransactionProposal` reverts when the id is already
proposed, `updateSignatureState` reverts when the member is already marked
signed, `updateTransactionState` reverts when the id is already processed;
and a second `updateSignatureState` by the same member for the same transfer
reverts provided the first successful call passed `signed = true` (a call
passing `signed = false` leaves the member unmarked and may be repeated, as
the counterexample shows). -/
theorem c3_flags_monotone_amended (keccak : List Nat → Nat)
    (st : ContractState) (caller : Nat) (t : Transfer)
    (txHex signature signature2 : List Nat) (signed sent b2 : Bool) :
    (∀ st2 idv, sendTransactionProposal keccak st caller t txHex =
        .ok (st2, idv) →
      (∀ j, st.isProposed j = true → st2.isProposed j = true) ∧
      st2.isSigned = st.isSigned ∧ st2.isProcessed = st.isProcessed) ∧
    (∀ st2 idv, updateSignatureState keccak st caller t signature signed =
        .ok (st2, idv) →
      (∀ j a, st.isSigned j a = true → st2.isSigned j a = true) ∧
      st2.isProposed = st.isProposed ∧ st2.isProcessed = st.isProcessed) ∧
    (∀ st2 idv, updateTransactionState keccak st caller t sent =
        .ok (st2, idv) →
      (∀ j, st.isProcessed j = true → st2.isProcessed j = true) ∧
      st2.isProposed = st.isProposed ∧ st2.isSigned = st.isSigned) ∧
    (st.isProposed (transferId keccak t) = true →
      isOkE (sendTransactionProposal keccak st caller t txHex) = false) ∧
    (st.isSigned (transferId keccak t) caller = true →
      isOkE (updateSignatureState keccak st caller t signature signed) =
        false) ∧
    (st.isProcessed (transferId keccak t) = true →
      isOkE (updateTransactionState keccak st caller t sent) = false) ∧
    (∀ st2 idv, updateSignatureState keccak st caller t signature true =
        .ok (st2, idv) →
      isOkE (updateSignatureState keccak st2 caller t signature2 b2) =
        false) := by
  refine ⟨?_, ?_, ?_, ?_, ?_, ?_, ?_⟩
  · intro st2 idv h
    simp only [sendTransactionProposal] at h
    split at h
    · exact absurd h (by simp)
    · split at h
      · exact absurd h (by simp)
      · simp only [Except.ok.injEq, Prod.mk.injEq] at h
        rw [← h.1]
        refine ⟨fun j hj => ?_, rfl, rfl⟩
        by_cases hje : j = keccak (toBytesBE 32 t.originalTokenAddress ++
            toBytesBE 32 t.sender ++ toBytesBE 32 t.receiver ++
            toBytesBE 32 t.value ++ toBytesBE 32 t.transactionHash ++
            [t.flow.toByte]) <;> simp [hje, hj]
  · intro st2 idv h
    simp only [updateSignatureState] at h
    split at h
    · exact absurd h (by simp)
    · rename_i hguard
      split at h
      · exact absurd h (by simp)
      · rename_i hsignedGuard
        simp only [Except.ok.injEq, Prod.mk.injEq] at h
        rw [← h.1]
        refine ⟨fun j a hja => ?_, rfl, rfl⟩
        show (if _ ∧ _ then signed else st.isSigned j a) = true
        split
        · rename_i hje
          exact absurd (by rw [← hje.1, ← hje.2]; exact hja) hsignedGuard
        · exact hja
  · intro st2 idv h
    simp only [updateTransactionState] at h
    split at h
    · exact absurd h (by simp)
    · rename_i hguard
      split at h
      · exact absurd h (by simp)
      · rename_i hsentGuard
        simp only [Except.ok.injEq, Prod.mk.injEq] at h
        rw [← h.1]
        refine ⟨fun j hj => ?_, rfl, rfl⟩
        show (if _ then sent else st.isProcessed j) = true
        split
        · rename_i hje
          exact absurd (by rw [← hje]; exact hj) hsentGuard
        · exact hj
  · intro hp
    simp only [transferId, encodePackedTransfer] at hp
    simp only [sendTransactionProposal]
    split
    · rfl
    · rfl
  · intro hp
    simp only [transferId, encodePackedTransfer] at hp
    simp only [updateSignatureState]
    split
    · rfl
    · rfl
  · intro hp
    simp only [transferId, encodePackedTransfer] at hp
    simp only [updateTransactionState]
    split
    · rfl
    · rfl
  · intro st2 idv h
    simp only [updateSignatureState] at h
    split at h
    · exact absurd h (by simp)
    · rename_i hmem
      split at h
      · exact absurd h (by simp)
      · simp only [Except.ok.injEq, Prod.mk.injEq] at h
        rw [← h.1]
        simp only [updateSignatureState]
        rw [if_neg hmem, if_pos (by simp)]
        rfl

/-- Witness for C3 (amended) at the concrete fixtures: the proposal guard
makes a second proposal fail on a state where the id is already proposed. -/
theorem c3_flags_monotone_amended_witness :
    isOkE (sendTransactionProposal exKeccak exProposedState 1 exT []) =
      false :=
  (c3_flags_monotone_amended exKeccak exProposedState 1 exT [] [] [] true
    true true).2.2.2.1 rfl

/-! ## C7 -/

/-- C7: an error raised while processing a queue message leads to an ack
exactly when it is a `HathorException` whose original message matches one of
the configured non-retriable patterns; every other error — including every
error that is not a `HathorException` — leads to a nack; and the message
callback defers to this catch-block classification whenever
`parseHathorLogs` throws. -/
theorem c7_error_classification :
    (∀ m o, isNonRetriable o = true →
      handleQueueError (.hathorEx m o) = .ack) ∧
    (∀ m o, isNonRetriable o = false →
      handleQueueError (.hathorEx m o) = .nack) ∧
    (∀ s, handleQueueError (.other s) = .nack) ∧
    (∀ cfg env e err, (parseHathorLogs cfg env e).2.2 = .error err →
      handleMessage cfg env e = handleQueueError err) := by
  refine ⟨?_, ?_, ?_, ?_⟩
  · intro m o h
    simp [handleQueueError, h]
  · intro m o h
    simp [handleQueueError, h]
  · intro s
    rfl
  · intro cfg env e err h
    simp [handleMessage, h]

/-- Witness for C7: a `HathorException` whose original message is exactly
the configured pattern `Invalid tx` is acked, a `HathorException` with an
unrecognized message is nacked. -/
theorem c7_error_classification_witness :
    handleQueueError (.hathorEx "500 - fail" "Invalid tx") =
      QueueAction.ack ∧
    handleQueueError (.hathorEx "500 - fail" "unknown upstream issue") =
      QueueAction.nack :=
  ⟨c7_error_classification.1 "500 - fail" "Invalid tx" (by decide),
   c7_error_classification.2.1 "500 - fail" "unknown upstream issue"
     (by decide)⟩

/-! ## C10 -/

/-- C10: a federator whose configured multisigOrder is greater than 1 makes
`sendTokensToHathor` a no-op in both implementations: the guard returns
before any readiness check, proposal creation, broadcast, or broker call,
and no error is raised. -/
theorem c10_send_tokens_to_hathor_guard (multisigOrder : Nat)
    (env env2 : Except String Unit) (h : 1 < multisigOrder) :
    HathorWalletM.sendTokensToHathor multisigOrder env = ([], .ok ()) ∧
    HathorServiceM.sendTokensToHathor multisigOrder env2 = ([], .ok ()) := by
  constructor
  · simp [HathorWalletM.sendTokensToHathor, h]
  · simp [HathorServiceM.sendTokensToHathor, h]

/-- Witness for C10 at multisigOrder 2 with an erroring environment. -/
theorem c10_send_tokens_to_hathor_guard_witness :
    HathorWalletM.sendTokensToHathor 2 (.error "boom") = ([], .ok ()) ∧
    HathorServiceM.sendTokensToHathor 2 (.error "boom") = ([], .ok ()) :=
  c10_send_tokens_to_hathor_guard 2 (.error "boom") (.error "boom")
    (by decide)

/-! ## C8 -/

/-- A syncing status response. -/
def exSyncing : StatusResponse := ⟨true, 2, "Syncing"⟩

/-- A ready status response. -/
def exReady : StatusResponse := ⟨true, 3, "Ready"⟩

/-- A stopped status response: success false with an empty status message. -/
def exStopped : StatusResponse := ⟨false, 0, ""⟩

/-- C8: the readiness check polls with a retry budget of 3 attempts and a
fixed 3000 ms delay. A wallet answering SYNCING, SYNCING, READY succeeds
(true) after exactly 3 polls and 2 delays; a wallet answering SYNCING on
every poll returns false — without throwing — after exhausting the 3
attempts; and a stopped response (success false, empty status message, and
none of the ready/connecting/syncing codes) triggers an explicit start call
followed by the delay before the next poll. -/
theorem c8_wallet_readiness_polling :
    isWalletReady [exSyncing, exSyncing, exReady] 1 =
      ([.poll, .delayMs 3000, .poll, .delayMs 3000, .poll],
       .ok (some true)) ∧
    isWalletReady [exSyncing, exSyncing, exSyncing, exSyncing] 1 =
      ([.poll, .delayMs 3000, .poll, .delayMs 3000, .poll, .delayMs 3000],
       .ok (some false)) ∧
    (∀ r rest retry, retry ≤ 3 → r.success = false → r.statusMessage = "" →
       r.statusCode ≠ WALLET_STATUS_READY →
       r.statusCode ≠ WALLET_STATUS_CONNECTING →
       r.statusCode ≠ WALLET_STATUS_SYNCING →
       isWalletReady (r :: rest) retry =
         (.poll :: .startCall :: .delayMs 3000 ::
            (isWalletReady rest (retry + 1)).1,
          (isWalletReady rest (retry + 1)).2)) := by
  refine ⟨rfl, rfl, ?_⟩
  intro r rest retry hretry hsucc hmsg hready hconn hsync
  rw [isWalletReady]
  rw [if_neg (by omega)]
  rw [if_neg hready, if_neg (by simp [hconn, hsync]), if_pos ⟨hsucc, hmsg⟩]

/-- Witness for C8: a stopped wallet is started, then polled again and found
ready. -/
theorem c8_wallet_readiness_polling_witness :
    isWalletReady [exStopped, exReady] 1 =
      ([.poll, .startCall, .delayMs 3000, .poll], .ok (some true)) := by
  have h := c8_wallet_readiness_polling.2.2 exStopped [exReady] 1
    (by decide) rfl rfl (by decide) (by decide) (by decide)
  rw [h]
  rfl

/-! ## C4 -/

/-- A transaction carrying both the `addr` and the `hex` tag (with the `hsh`
sub-tag), used to exercise the classification priority. -/
def c4tx : HathorTxM :=
  { txId := "t1", timestamp := 5, hasHex := true, hasSig := false,
    hasAddr := true, customDataType := some "hsh",
    customData := fun tag => if tag = "hex" then "HEXDATA" else "DT",
    customTokenData := [] }

/-- Configuration of a first federator among two required signatures. -/
def c4cfg : ChainCfg := ⟨1, 2⟩

/-- An environment where the transaction is confirmed. -/
def c4env : BrokerEnv := ⟨true, ⟨"H", []⟩, true⟩

/-- The queue message wrapping `c4tx`. -/
def c4msg : EventMsg := ⟨"wallet:new-tx", c4tx⟩

/-- C4 counterexample: on a transaction carrying both the `addr` and the
`hex` tag the claimed priority order addr > hex > sig would take the inbound
transfer branch, but the code takes the proposal branch: it calls
`sendMySignaturesToProposal` and never `sendTokensFromHathor`. -/
theorem c4_counterexample :
    c4tx.hasAddr = true ∧
    (parseHathorLogs c4cfg c4env c4msg).1 = Branch.proposal ∧
    (parseHathorLogs c4cfg c4env c4msg).1 ≠ Branch.inbound ∧
    (parseHathorLogs c4cfg c4env c4msg).2.1 =
      [.isTxConfirmed .evm "t1",
       .sendMySignaturesToProposal "HEXDATA" "DT"] := by
  refine ⟨rfl, rfl, by decide, rfl⟩

/-- C4 (amended): classification follows the priority order hex (proposal) >
sig (signature) > addr (inbound transfer) — not addr > hex > sig — with the
signature branch additionally guarded by the federator order having reached
the required signature count; the first branch whose guard holds wins, and
co-presence of several tags is not a hard failure (with a defined broker and
a confirmed transaction the proposal branch still returns ok). -/
theorem c4_classification_priority_amended (cfg : ChainCfg) (env : BrokerEnv)
    (e : EventMsg) (hty : e.eventType = "wallet:new-tx") :
    ((parseHathorLogs cfg env e).1 = Branch.proposal ↔ e.tx.hasHex = true) ∧
    ((parseHathorLogs cfg env e).1 = Branch.signature ↔
       e.tx.hasHex = false ∧ e.tx.hasSig = true ∧
       cfg.multisigRequiredSignatures ≤ cfg.multisigOrder) ∧
    ((parseHathorLogs cfg env e).1 = Branch.inbound ↔
       e.tx.hasHex = false ∧
       ¬(e.tx.hasSig = true ∧
          cfg.multisigRequiredSignatures ≤ cfg.multisigOrder) ∧
       e.tx.hasAddr = true) ∧
    (∀ bk dt, e.tx.hasHex = true → getBrokerAndDataType e.tx = some (bk, dt) →
       env.confirmed = true →
       (parseHathorLogs cfg env e).2.2 = .ok (some true)) := by
  simp only [parseHathorLogs, hty]
  have hne : ¬("wallet:new-tx" ≠ "wallet:new-tx") := by simp
  rw [if_neg hne]
  cases hhex : e.tx.hasHex with
  | true =>
    refine ⟨?_, ?_, ?_, ?_⟩
    · simp only [if_pos rfl]
      cases hbk : getBrokerAndDataType e.tx with
      | none => simp
      | some p =>
        cases p with
        | mk bk dt =>
          cases hc : env.confirmed <;> simp
    · simp only [if_pos rfl]
      cases hbk : getBrokerAndDataType e.tx with
      | none => simp
      | some p =>
        cases p with
        | mk bk dt =>
          cases hc : env.confirmed <;> simp
    · simp only [if_pos rfl]
      cases hbk : getBrokerAndDataType e.tx with
      | none => simp
      | some p =>
        cases p with
        | mk bk dt =>
          cases hc : env.confirmed <;> simp
    · intro bk dt _ hbk hc
      simp only [if_pos rfl, hbk, hc]
      simp
  | false =>
    by_cases hsig : e.tx.hasSig = true ∧
        cfg.multisigRequiredSignatures ≤ cfg.multisigOrder
    · refine ⟨?_, ?_, ?_, ?_⟩
      · simp only [Bool.false_eq_true, if_false, if_pos hsig]
        cases hbk : getBrokerAndDataType e.tx with
        | none => simp
        | some p =>
          cases p with
          | mk bk dt =>
            cases hc : env.confirmed
            · simp
            · by_cases hlen : env.components.signatures.length <
                  cfg.multisigRequiredSignatures <;> simp [hlen]
      · simp only [Bool.false_eq_true, if_false, if_pos hsig]
        cases hbk : getBrokerAndDataType e.tx with
        | none => simp [hsig]
        | some p =>
          cases p with
          | mk bk dt =>
            cases hc : env.confirmed
            · simp [hsig]
            · by_cases hlen : env.components.signatures.length <
                  cfg.multisigRequiredSignatures <;> simp [hlen, hsig]
      · simp only [Bool.false_eq_true, if_false, if_pos hsig]
        cases hbk : getBrokerAndDataType e.tx with
        | none => simp [hsig]
        | some p =>
          cases p with
          | mk bk dt =>
            cases hc : env.confirmed
            · simp [hsig]
            · by_cases hlen : env.components.signatures.length <
                  cfg.multisigRequiredSignatures <;> simp [hlen, hsig]
      · intro bk dt hfalse
        exact absurd hfalse (by decide)
    · refine ⟨?_, ?_, ?_, ?_⟩
      · cases haddr : e.tx.hasAddr with
        | true =>
          simp only [Bool.false_eq_true, if_false, if_neg hsig, if_pos rfl]
          cases hc : env.confirmed
          · simp
          · cases htd : e.tx.customTokenData.head? with
            | none => simp
            | some td =>
              cases hsr : env.sendResult <;> simp
        | false =>
          simp only [Bool.false_eq_true, if_false, if_neg hsig]
          simp
      · cases haddr : e.tx.hasAddr with
        | true =>
          simp only [Bool.false_eq_true, if_false, if_neg hsig, if_pos rfl]
          cases hc : env.confirmed
          · simp [hsig]
          · cases htd : e.tx.customTokenData.head? with
            | none => simp [hsig]
            | some td =>
              cases hsr : env.sendResult <;> simp [hsig]
        | false =>
          simp only [Bool.false_eq_true, if_false, if_neg hsig]
          simp [hsig]
      · cases haddr : e.tx.hasAddr with
        | true =>
          simp only [Bool.false_eq_true, if_false, if_neg hsig, if_pos rfl]
          cases hc : env.confirmed
          · simp [hsig]
          · cases htd : e.tx.customTokenData.head? with
            | none => simp [hsig]
            | some td =>
              cases hsr : env.sendResult <;> simp [hsig]
        | false =>
          simp only [Bool.false_eq_true, if_false, if_neg hsig]
          simp [hsig]
      · intro bk dt hfalse
        exact absurd hfalse (by decide)

/-- Witness for C4 (amended): on the co-presence fixture the proposal branch
is the one taken and the message still succeeds. -/
theorem c4_classification_priority_amended_witness :
    (parseHathorLogs c4cfg c4env c4msg).1 = Branch.proposal ∧
    (parseHathorLogs c4cfg c4env c4msg).2.2 = .ok (some true) :=
  ⟨(c4_classification_priority_amended c4cfg c4env c4msg rfl).1.mpr rfl,
   (c4_classification_priority_amended c4cfg c4env c4msg rfl).2.2.2
     .evm "hsh" rfl rfl rfl⟩

/-! ## C5 -/

/-- C5: for a message classified as a signature (the `sig` tag present, no
`hex` tag) handled by a federator whose multisigOrder has reached
multisigRequiredSignatures: an unconfirmed transaction is nacked; a confirmed
transaction has its aggregated signatures read, and if their count is below
the required threshold the message is nacked without pushing; once the count
reaches the threshold `signAndPushProposal` is called with the aggregated
hex and signatures and the message is acked. -/
theorem c5_signature_path (cfg : ChainCfg) (env : BrokerEnv) (e : EventMsg)
    (bk : BrokerKind) (dt : String)
    (hty : e.eventType = "wallet:new-tx") (hhex : e.tx.hasHex = false)
    (hsig : e.tx.hasSig = true)
    (hord : cfg.multisigRequiredSignatures ≤ cfg.multisigOrder)
    (hbk : getBrokerAndDataType e.tx = some (bk, dt)) :
    (env.confirmed = false → handleMessage cfg env e = .nack) ∧
    (env.confirmed = true →
       env.components.signatures.length < cfg.multisigRequiredSignatures →
       handleMessage cfg env e = .nack ∧
       (parseHathorLogs cfg env e).2.1 =
         [.isTxConfirmed bk e.tx.txId,
          .getSignaturesToPush (e.tx.customData dt)]) ∧
    (env.confirmed = true →
       cfg.multisigRequiredSignatures ≤ env.components.signatures.length →
       handleMessage cfg env e = .ack ∧
       (parseHathorLogs cfg env e).2.1 =
         [.isTxConfirmed bk e.tx.txId,
          .getSignaturesToPush (e.tx.customData dt),
          .signAndPushProposal env.components.hex (e.tx.customData dt)
            env.components.signatures]) := by
  have hguard : e.tx.hasSig = true ∧
      cfg.multisigRequiredSignatures ≤ cfg.multisigOrder := ⟨hsig, hord⟩
  refine ⟨?_, ?_, ?_⟩
  · intro hc
    simp [handleMessage, parseHathorLogs, hty, hhex, hguard, hbk, hc]
  · intro hc hlen
    constructor
    · simp [handleMessage, parseHathorLogs, hty, hhex, hguard, hbk, hc, hlen]
    · simp [parseHathorLogs, hty, hhex, hguard, hbk, hc, hlen]
  · intro hc hlen
    have hnlt : ¬(env.components.signatures.length <
        cfg.multisigRequiredSignatures) := by omega
    constructor
    · simp [handleMessage, parseHathorLogs, hty, hhex, hguard, hbk, hc, hnlt]
    · simp [parseHathorLogs, hty, hhex, hguard, hbk, hc, hnlt]

/-- A signature-only transaction with the `hid` sub-tag. -/
def c5tx : HathorTxM :=
  { txId := "t5", timestamp := 9, hasHex := false, hasSig := true,
    hasAddr := false, customDataType := some "hid",
    customData := fun _ => "PROPID", customTokenData := [] }

/-- Configuration of the last federator of two. -/
def c5cfg : ChainCfg := ⟨2, 2⟩

/-- A confirmed environment holding two aggregated signatures. -/
def c5env : BrokerEnv := ⟨true, ⟨"HEX5", ["s1", "s2"]⟩, true⟩

/-- The queue message wrapping `c5tx`. -/
def c5msg : EventMsg := ⟨"wallet:new-tx", c5tx⟩

/-- Witness for C5: with the threshold reached the message is acked and the
push call is in the trace. -/
theorem c5_signature_path_witness :
    handleMessage c5cfg c5env c5msg = QueueAction.ack ∧
    (parseHathorLogs c5cfg c5env c5msg).2.1 =
      [.isTxConfirmed .hathor "t5", .getSignaturesToPush "PROPID",
       .signAndPushProposal "HEX5" "PROPID" ["s1", "s2"]] :=
  (c5_signature_path c5cfg c5env c5msg .hathor "hid" rfl rfl rfl
    (by decide) rfl).2.2 rfl (by decide)

/-! ## C6 -/

/-- A signature-only transaction for the low-order federator scenario. -/
def c6tx : HathorTxM :=
  { txId := "t6", timestamp := 3, hasHex := false, hasSig := true,
    hasAddr := false, customDataType := some "hid",
    customData := fun _ => "PROPID6", customTokenData := [] }

/-- Configuration of the first federator of two (below the threshold
position). -/
def c6cfg : ChainCfg := ⟨1, 2⟩

/-- A confirmed environment (irrelevant: no call is made). -/
def c6env : BrokerEnv := ⟨true, ⟨"H6", ["s1"]⟩, true⟩

/-- The queue message wrapping `c6tx`. -/
def c6msg : EventMsg := ⟨"wallet:new-tx", c6tx⟩

/-- C6 counterexample: a signature event arriving at a federator whose
multisigOrder is below the threshold makes no wallet or broker call, but the
message is NOT acknowledged — `parseHathorLogs` falls through every branch
and returns undefined, which the listener treats as falsy and nacks. -/
theorem c6_counterexample :
    c6cfg.multisigOrder < c6cfg.multisigRequiredSignatures ∧
    (parseHathorLogs c6cfg c6env c6msg).2.1 = [] ∧
    handleMessage c6cfg c6env c6msg ≠ QueueAction.ack ∧
    handleMessage c6cfg c6env c6msg = QueueAction.nack := by
  refine ⟨by decide, rfl, by decide, rfl⟩

/-- C6 (amended): a signature event (no other recognized tag) arriving at a
federator whose multisigOrder is below the required signature threshold makes
no wallet or broker call, and the message is nacked (not acked):
`parseHathorLogs` returns undefined, a falsy value, so the listener calls
`message.nack()`. -/
theorem c6_low_order_signature_amended (cfg : ChainCfg) (env : BrokerEnv)
    (e : EventMsg) (hty : e.eventType = "wallet:new-tx")
    (hhex : e.tx.hasHex = false) (hsig : e.tx.hasSig = true)
    (haddr : e.tx.hasAddr = false)
    (hord : cfg.multisigOrder < cfg.multisigRequiredSignatures) :
    (parseHathorLogs cfg env e).2.1 = [] ∧
    handleMessage cfg env e = QueueAction.nack := by
  have hguard : ¬(e.tx.hasSig = true ∧
      cfg.multisigRequiredSignatures ≤ cfg.multisigOrder) := by
    rintro ⟨-, h⟩
    omega
  constructor
  · simp [parseHathorLogs, hty, hhex, hguard, haddr]
  · simp [handleMessage, parseHathorLogs, hty, hhex, hguard, haddr]

/-- Witness for C6 (amended) at the concrete low-order fixture. -/
theorem c6_low_order_signature_amended_witness :
    (parseHathorLogs c6cfg c6env c6msg).2.1 = [] ∧
    handleMessage c6cfg c6env c6msg = QueueAction.nack :=
  c6_low_order_signature_amended c6cfg c6env c6msg rfl rfl rfl rfl
    (by decide)

/-! ## C9 -/

/-- A new-tx event whose transaction carries none of the recognized tags. -/
def c9tx : HathorTxM :=
  { txId := "t9", timestamp := 1, hasHex := false, hasSig := false,
    hasAddr := false, customDataType := none,
    customData := fun _ => "", customTokenData := [] }

/-- Environment for the tag-less scenario (irrelevant: no call is made). -/
def c9env : BrokerEnv := ⟨true, ⟨"H9", []⟩, true⟩

/-- Configuration for the tag-less scenario. -/
def c9cfg : ChainCfg := ⟨1, 2⟩

/-- The queue message wrapping `c9tx`. -/
def c9msg : EventMsg := ⟨"wallet:new-tx", c9tx⟩

/-- C9 counterexample: a `wallet:new-tx` message whose transaction carries
none of the recognized custom-data tags makes no wallet or broker call, but
it is nacked, not acknowledged: `parseHathorLogs` falls through every branch
returning undefined, which the listener treats as falsy. -/
theorem c9_counterexample :
    (parseHathorLogs c9cfg c9env c9msg).2.1 = [] ∧
    handleMessage c9cfg c9env c9msg ≠ QueueAction.ack ∧
    handleMessage c9cfg c9env c9msg = QueueAction.nack := by
  refine ⟨rfl, by decide, rfl⟩

/-- C9 (amended): a message whose event type is not `wallet:new-tx` is
acknowledged and discarded with no wallet or broker call; a `wallet:new-tx`
message carrying none of the recognized tags (`addr`, `hex`, `sig`) also
makes no wallet or broker call, but it is nacked rather than acknowledged
(the fall-through returns undefined, a falsy value). -/
theorem c9_non_bridge_message_amended (cfg : ChainCfg) (env : BrokerEnv)
    (e : EventMsg) :
    (e.eventType ≠ "wallet:new-tx" →
       (parseHathorLogs cfg env e).2.1 = [] ∧
       handleMessage cfg env e = QueueAction.ack) ∧
    (e.eventType = "wallet:new-tx" → e.tx.hasHex = false →
       e.tx.hasSig = false → e.tx.hasAddr = false →
       (parseHathorLogs cfg env e).2.1 = [] ∧
       handleMessage cfg env e = QueueAction.nack) := by
  constructor
  · intro hty
    constructor
    · simp [parseHathorLogs, hty]
    · simp [handleMessage, parseHathorLogs, hty]
  · intro hty hhex hsig haddr
    constructor
    · simp [parseHathorLogs, hty, hhex, hsig, haddr]
    · simp [handleMessage, parseHathorLogs, hty, hhex, hsig, haddr]

/-- Witness for C9 (amended): a non-new-tx event is acked without calls. -/
theorem c9_non_bridge_message_amended_witness :
    (parseHathorLogs c9cfg c9env ⟨"wallet:other", c9tx⟩).2.1 = [] ∧
    handleMessage c9cfg c9env ⟨"wallet:other", c9tx⟩ = QueueAction.ack :=
  (c9_non_bridge_message_amended c9cfg c9env ⟨"wallet:other", c9tx⟩).1
    (by decide)

/-! ## C2: helper lemmas for the codec round trip -/

/-- Stripping an appended prefix succeeds and returns the remainder. -/
theorem dropPrefixQ_append (tag rest : List Char) :
    dropPrefixQ tag (tag ++ rest) = some rest := by
  induction tag with
  | nil => rfl
  | cons c cs ih => simp [dropPrefixQ, ih]

/-- The decimal rendering of a digit is that single digit character. -/
theorem toString_digit (i : Nat) (h : i < 10) :
    (toString i).toList = [Char.ofNat (48 + i)] := by
  interval_cases i <;> decide

/-- Function `charDigitVal` inverts `Char.ofNat (48 + i)` on digits. -/
theorem charDigitVal_ofNat (i : Nat) (h : i < 10) :
    charDigitVal (Char.ofNat (48 + i)) = i := by
  interval_cases i <;> decide

/-- Parsing a wrapped chunk recovers its index and body when both the index
and the total fit in a single decimal digit. -/
theorem chunkOfOutput_wrap (tag : List Char) (i k : Nat) (part : List Char)
    (hi : i < 10) (hk : k < 10) :
    chunkOfOutput tag (.dataOut (tag ++ (toString i).toList ++
      (toString k).toList ++ part)) = some (i, part) := by
  rw [toString_digit i hi, toString_digit k hk]
  have harr : tag ++ [Char.ofNat (48 + i)] ++ [Char.ofNat (48 + k)] ++ part =
      tag ++ (Char.ofNat (48 + i) :: Char.ofNat (48 + k) :: part) := by
    simp
  rw [chunkOfOutput, harr, dropPrefixQ_append]
  simp [charDigitVal_ofNat i hi]

/-- A `filterMap` over a mapped list reduces to a plain map when the composite
is total. -/
theorem filterMap_map_total {α β γ : Type} (f : α → β) (g : β → Option γ)
    (h : α → γ) (l : List α) (H : ∀ x ∈ l, g (f x) = some (h x)) :
    (l.map f).filterMap g = l.map h := by
  induction l with
  | nil => rfl
  | cons a l ih =>
    simp only [List.map_cons, List.filterMap_cons,
      H a (List.mem_cons_self a l)]
    rw [ih fun x hx => H x (List.mem_cons_of_mem a hx)]

/-- The chunk list recovered from `wrapDataGen` is the indexed list of the
payload slices, provided the chunk count fits in one decimal digit. -/
theorem wrapDataGen_filterMap (tag data : List Char) (n : Nat)
    (hk : (data.length + n - 1) / n ≤ 9) :
    (wrapDataGen tag data n).filterMap (chunkOfOutput tag) =
      (List.range ((data.length + n - 1) / n)).map
        (fun i => (i, (data.drop (i * n)).take n)) := by
  unfold wrapDataGen
  rw [List.filterMap_append]
  have haddr : List.filterMap (chunkOfOutput tag) [WrapOutput.addressOut] =
      [] := rfl
  rw [haddr, List.append_nil]
  exact filterMap_map_total _ _ _ _ fun i hi =>
    chunkOfOutput_wrap tag i _ _
      (lt_of_lt_of_le (List.mem_range.mp hi) (le_trans hk (by omega)))
      (by omega)

/-- Inserting an element whose key is at most the head of the list puts it
in front. -/
theorem insertByIdx_front (p : Nat × List Char)
    (l : List (Nat × List Char))
    (h : ∀ q ∈ l.head?, p.1 ≤ q.1) :
    insertByIdx p l = p :: l := by
  cases l with
  | nil => rfl
  | cons q qs =>
    have : p.1 ≤ q.1 := h q rfl
    simp [insertByIdx, this]

/-- Insertion sort leaves a list already sorted by key unchanged. -/
theorem sortByIdx_of_chain (l : List (Nat × List Char))
    (h : List.Chain' (fun a b => a.1 ≤ b.1) l) : sortByIdx l = l := by
  induction l with
  | nil => rfl
  | cons p ps ih =>
    rw [sortByIdx, ih h.tail]
    apply insertByIdx_front
    intro q hq
    cases ps with
    | nil => simp at hq
    | cons r rs =>
      simp only [List.head?_cons, Option.mem_def, Option.some.injEq] at hq
      rw [← hq]
      exact (List.chain'_cons.mp h).1

/-- The indexed chunk list is sorted by key. -/
theorem chain_range_pairs (k : Nat) (f : Nat → List Char) :
    List.Chain' (fun a b : Nat × List Char => a.1 ≤ b.1)
      ((List.range k).map fun i => (i, f i)) := by
  rw [List.chain'_map]
  exact ((List.pairwise_lt_range k).imp fun hab => le_of_lt hab).chain'

/-- Concatenating the `n`-sized slices of a list rebuilds the list. -/
theorem chunks_flatten (N : Nat) :
    ∀ (l : List Char) (n : Nat), 0 < n → l.length ≤ N →
    ((List.range ((l.length + n - 1) / n)).map
      fun i => (l.drop (i * n)).take n).flatten = l := by
  induction N with
  | zero =>
    intro l n hn hl
    have hnil : l = [] := List.eq_nil_of_length_eq_zero (Nat.le_zero.mp hl)
    subst hnil
    have h0 : (0 + n - 1) / n = 0 := Nat.div_eq_of_lt (by omega)
    simp [h0]
  | succ N ih =>
    intro l n hn hl
    rcases Nat.eq_zero_or_pos l.length with hl0 | hpos
    · have hnil : l = [] := List.eq_nil_of_length_eq_zero hl0
      subst hnil
      have h0 : (0 + n - 1) / n = 0 := Nat.div_eq_of_lt (by omega)
      simp [h0]
    · have hceil : (l.length + n - 1) / n = (l.length - 1) / n + 1 := by
        have harith : l.length + n - 1 = (l.length - 1) + n := by omega
        rw [harith, Nat.add_div_right _ hn]
      have htail : (l.length - 1) / n = ((l.drop n).length + n - 1) / n := by
        rw [List.length_drop]
        rcases le_or_lt l.length n with hle | hlt
        · have h1 : l.length - n = 0 := by omega
          rw [h1]
          have h2 : (0 + n - 1) / n = 0 := Nat.div_eq_of_lt (by omega)
          rw [h2]
          exact Nat.div_eq_of_lt (by omega)
        · congr 1
          omega
      rw [hceil, List.range_succ_eq_map, List.map_cons, List.map_map]
      have hhead : (l.drop (0 * n)).take n = l.take n := by simp
      have hbody : ((List.range ((l.length - 1) / n)).map
          ((fun i => (l.drop (i * n)).take n) ∘ Nat.succ)) =
          (List.range (((l.drop n).length + n - 1) / n)).map
            fun i => ((l.drop n).drop (i * n)).take n := by
        rw [← htail]
        apply List.map_congr_left
        intro i _
        simp only [Function.comp_apply]
        rw [List.drop_drop]
        congr 1
        congr 1
        rw [Nat.succ_mul]
        ring
      rw [List.flatten_cons, hhead, hbody,
        ih (l.drop n) n hn (by rw [List.length_drop]; omega)]
      exact List.take_append_drop n l

/-! ## C2 -/

/-- The tag used by the C2 fixtures. -/
def c2tag : List Char := ['h', 'e', 'x']

/-- C2 counterexample: for the empty payload the encoder emits no data
output at all (only the address output), so decoding with the same tag
returns absent rather than the original empty payload. -/
theorem c2_counterexample :
    wrapDataGen c2tag [] 145 = [WrapOutput.addressOut] ∧
    decodeData (wrapDataGen c2tag [] 145) c2tag ≠ some [] ∧
    decodeData (wrapDataGen c2tag [] 145) c2tag = none := by
  refine ⟨rfl, by decide, rfl⟩

/-- C2 (amended): for every tag, chunk size n > 0 and nonempty payload
occupying at most 9 chunks (so that chunk index and total each fit in the
single decimal digit of the source scheme), encoding splits the payload into
ceil(length/n) chunks of at most n characters each, wrapped as
tag ++ index ++ total ++ body with indices 0..total-1 in order, and decoding
the resulting outputs with the same tag returns exactly the original
payload. For the empty payload the encoder produces no data output and
decoding returns absent (see the counterexample), so the round trip holds
for payload lengths 1, n and n+1 but not 0. -/
theorem c2_wrap_decode_roundtrip_amended (tag data : List Char) (n : Nat)
    (hn : 0 < n) (hlen : 0 < data.length)
    (hk : (data.length + n - 1) / n ≤ 9) :
    ((wrapDataGen tag data n).filterMap (chunkOfOutput tag) =
       (List.range ((data.length + n - 1) / n)).map
         (fun i => (i, (data.drop (i * n)).take n))) ∧
    (∀ i, ((data.drop (i * n)).take n).length ≤ n) ∧
    decodeData (wrapDataGen tag data n) tag = some data := by
  have hchunks := wrapDataGen_filterMap tag data n hk
  refine ⟨hchunks, fun i => by simp [List.length_take], ?_⟩
  have hkpos : 0 < (data.length + n - 1) / n := by
    apply Nat.div_pos <;> omega
  have hnonnil : (List.range ((data.length + n - 1) / n)).map
      (fun i => (i, (data.drop (i * n)).take n)) ≠ [] := by
    simp only [ne_eq, List.map_eq_nil_iff, List.range_eq_nil]
    omega
  have hempty : ((List.range ((data.length + n - 1) / n)).map
      (fun i => (i, (data.drop (i * n)).take n))).isEmpty = false := by
    cases hcase : (List.range ((data.length + n - 1) / n)).map
        (fun i => (i, (data.drop (i * n)).take n)) with
    | nil => exact absurd hcase hnonnil
    | cons c cs => rfl
  simp only [decodeData, hchunks, hempty, Bool.false_eq_true, if_false,
    Option.some.injEq]
  rw [sortByIdx_of_chain _ (chain_range_pairs _ _)]
  rw [List.map_map]
  have hsnd : (Prod.snd ∘ fun i => (i, (data.drop (i * n)).take n)) =
      fun i => (data.drop (i * n)).take n := rfl
  rw [hsnd, chunks_flatten data.length data n hn (le_refl _)]

/-- Witness for C2 (amended): a payload of length n+1 at chunk size n = 1
splits into two chunks and round trips. -/
theorem c2_wrap_decode_roundtrip_amended_witness :
    decodeData (wrapDataGen c2tag ['a', 'b'] 1) c2tag = some ['a', 'b'] :=
  (c2_wrap_decode_roundtrip_amended c2tag ['a', 'b'] 1 (by decide)
    (by decide) (by decide)).2.2

end TokenBridge
